import Mathlib

/-!
# hcloud_exporter: the server collector

A shallow embedding of `pkg/exporter/server.go` (`NewServerCollector`,
`ServerCollector.Collect`) and the properties of one collection cycle.

The registry channel, the shared failure counter, the shared duration
histogram and the logger are the fields of an explicit `State`; a `Collect`
call is a function from the state before the call to the state after it.
What the collector receives from outside is an argument of the model: the
result of `client.Server.All` (a server list and an error), the reading of
`time.Since(now).Seconds()`, and `strconv.ParseFloat`. The deadline of the
fetch context only decides which result the fetch returns.
-/

namespace exporter

/-! ## Numbers -/

/-- A Go `float64`, by the number it denotes: a finite value, an infinity or
NaN. The two signed zeros are not told apart. -/
inductive float64 where
  | finite (q : ℚ)
  | inf (negative : Bool)
  | nan
  deriving DecidableEq

/-- A Go `float32` (the type of `hcloud.ServerType.Memory`), by the number it
denotes. A finite value is `m * 2 ^ e` with `|m| < 2 ^ 24` and
`-149 ≤ e ≤ 104`. -/
inductive float32 where
  | finite (q : ℚ)
  | inf (negative : Bool)
  | nan
  deriving DecidableEq

/-- The largest finite `float32`, `(2 ^ 24 - 1) * 2 ^ 104`. -/
def maxFloat32 : ℚ := (2 ^ 24 - 1) * 2 ^ 104

/-- The `float32` product `x * c` for a constant `c = 2 ^ k` (here `1024`, `k = 10`).
The exact product of a `float32` and a power of two has the same significand,
so IEEE-754 rounding returns it unchanged when it is within range and the
infinity of its sign when it exceeds the largest finite value. -/
def float32.mulPow2 (x : float32) (k : Nat) : float32 :=
  match x with
  | .finite q =>
    if |q * 2 ^ k| ≤ maxFloat32 then .finite (q * 2 ^ k)
    else .inf (decide (q < 0))
  | .inf s => .inf s
  | .nan => .nan

/-- The conversion `float64(x)` of a `float32`: every `float32` is a `float64`. -/
def float64.ofFloat32 : float32 → float64
  | .finite q => .finite q
  | .inf s => .inf s
  | .nan => .nan

/-- The integer a 64-bit integer becomes under `float64(n)`: itself below
`2 ^ 53`, otherwise the nearest multiple of the unit in the last place of a
53-bit significand, ties to the even significand. -/
def roundToFloat64 (n : Int) : Int :=
  let a := n.natAbs
  if a < 2 ^ 53 then n
  else
    let e := Nat.log2 a - 52
    let q := a / 2 ^ e
    let r := a % 2 ^ e
    let half := 2 ^ (e - 1)
    let q1 := if half < r ∨ (r = half ∧ q % 2 = 1) then q + 1 else q
    Int.sign n * ((q1 * 2 ^ e : Nat) : Int)

/-- The conversion `float64(n)` of an integer (`int`, `int64` or `uint64`). -/
def float64.ofInt (n : Int) : float64 := .finite (roundToFloat64 n)

/-- The value an integer has as a Go `int`: two-complement wrap-around to 64
bits (the width of `int` on the build targets of the exporter), as after an
overflowing multiplication. -/
def wrapInt (n : Int) : Int := (n + 2 ^ 63) % 2 ^ 64 - 2 ^ 63

/-- The Go product `a * b` of two `int` values. -/
def mulInt (a b : Int) : Int := wrapInt (a * b)

/-- The call `strconv.FormatInt(i, base)`: the digits of `|i|` in the base, in
lower case, after a minus sign when `i` is negative. -/
def FormatInt (i : Int) (base : Nat) : String :=
  if i < 0 then "-" ++ String.mk (Nat.toDigits base i.natAbs)
  else String.mk (Nat.toDigits base i.natAbs)

/-! ## The records of the API client (`hcloud-go`)

Only the fields `Collect` reads. A pointer field the client always allocates
(`Datacenter`, `Location`, `ServerType`, `Network`) is the record itself. -/

/-- A `hcloud.Location`. -/
structure Location where
  Name : String
  deriving DecidableEq

/-- A `hcloud.Datacenter`. -/
structure Datacenter where
  Name : String
  Location : Location
  deriving DecidableEq

/-- A `hcloud.Network`; `ID` is `int64`. -/
structure Network where
  ID : Int
  deriving DecidableEq

/-- One private network attachment of a server. -/
structure ServerPrivateNet where
  Network : Network
  deriving DecidableEq

/-- A price as the API sends it: two decimal strings. -/
structure Price where
  Net : String
  Gross : String
  deriving DecidableEq

/-- The prices of a server type in one location. -/
structure ServerTypeLocationPricing where
  Location : Location
  Hourly : Price
  Monthly : Price
  deriving DecidableEq

/-- The server type: `Cores` and `Disk` are Go `int`, `Memory` is `float32`. -/
structure ServerType where
  Cores : Int
  Memory : float32
  Disk : Int
  Pricings : List ServerTypeLocationPricing
  deriving DecidableEq

/-- One server. `ID` is `int64`, `Created` is the value of `Created.Unix()`,
the three traffic counters are `uint64`. -/
structure Server where
  ID : Int
  Name : String
  Status : String
  Created : Int
  Datacenter : Datacenter
  PrivateNet : List ServerPrivateNet
  IncludedTraffic : Nat
  OutgoingTraffic : Nat
  IngoingTraffic : Nat
  ServerType : ServerType
  BackupWindow : String
  deriving DecidableEq

/-! ## Descriptors and metrics -/

/-- A `prometheus.Desc`: name, help text and the ordered label names. -/
structure Desc where
  fqName : String
  help : String
  variableLabels : List String
  deriving DecidableEq

/-- The `prometheus.ValueType` of a constant metric. -/
inductive ValueType where
  | CounterValue
  | GaugeValue
  | UntypedValue
  deriving DecidableEq

/-- A constant metric, what `Collect` sends on the channel. -/
structure Metric where
  desc : Desc
  valueType : ValueType
  value : float64
  labelValues : List String
  deriving DecidableEq

/-- The call `prometheus.MustNewConstMetric`. The Go function panics when the
number of label values is not the number of label names of the descriptor;
the model is of the calls in which the two agree, which are all the calls
`Collect` makes through the collector of `NewServerCollector`. -/
def MustNewConstMetric (desc : Desc) (valueType : ValueType) (value : float64)
    (labelValues : List String) : Metric :=
  { desc := desc, valueType := valueType, value := value, labelValues := labelValues }

/-- The descriptor table of `ServerCollector`. -/
structure ServerCollector where
  Running : Desc
  Created : Desc
  IncludedTraffic : Desc
  OutgoingTraffic : Desc
  IngoingTraffic : Desc
  Cores : Desc
  Memory : Desc
  Disk : Desc
  Backup : Desc
  PriceHourly : Desc
  PriceMonthly : Desc
  deriving DecidableEq

/-- The call `prometheus.NewDesc` without constant labels. -/
def NewDesc (fqName help : String) (variableLabels : List String) : Desc :=
  { fqName := fqName, help := help, variableLabels := variableLabels }

/-- The descriptors `NewServerCollector` builds. Its call
`failures.WithLabelValues("server").Add(0)` leaves every counter value as it is. -/
def NewServerCollector : ServerCollector :=
  let labels := ["id", "name", "datacenter", "network"]
  let pricingLabels := labels ++ ["vat"]
  { Running := NewDesc "hcloud_server_running" "If 1 the server is running, 0 otherwise" labels
    Created := NewDesc "hcloud_server_created_timestamp"
      "Timestamp when the server have been created" labels
    IncludedTraffic := NewDesc "hcloud_server_included_traffic_bytes"
      "Included traffic for the server in bytes" labels
    OutgoingTraffic := NewDesc "hcloud_server_outgoing_traffic_bytes"
      "Outgoing traffic from the server in bytes" labels
    IngoingTraffic := NewDesc "hcloud_server_incoming_traffic_bytes"
      "Ingoing traffic to the server in bytes" labels
    Cores := NewDesc "hcloud_server_cores" "Server number of cores" labels
    Memory := NewDesc "hcloud_server_memory_bytes" "Server memory in bytes" labels
    Disk := NewDesc "hcloud_server_disk_bytes" "Server disk in bytes" labels
    Backup := NewDesc "hcloud_server_backup" "If 1 server backups are enabled, 0 otherwise" labels
    PriceHourly := NewDesc "hcloud_server_price_hourly"
      "Price of the server billed hourly in €" pricingLabels
    PriceMonthly := NewDesc "hcloud_server_price_monthly"
      "Price of the server billed monthly in €" pricingLabels }

/-! ## The state a collection cycle writes to -/

/-- The channel `ch` (what has been sent, oldest first), the failure counter
and the duration histogram (both keyed by collector name), and the log. -/
structure State where
  ch : List Metric
  failures : String → Nat
  duration : String → List float64
  log : List String

/-- The send `ch <- m`. -/
def State.send (st : State) (m : Metric) : State :=
  { st with ch := st.ch ++ [m] }

/-- The call `c.failures.WithLabelValues(name).Inc()`. -/
def State.failuresInc (st : State) (name : String) : State :=
  { st with failures := fun k => if k = name then st.failures k + 1 else st.failures k }

/-- The call `c.duration.WithLabelValues(name).Observe(v)`. -/
def State.durationObserve (st : State) (name : String) (v : float64) : State :=
  { st with duration := fun k => if k = name then st.duration k ++ [v] else st.duration k }

/-- A call of `c.logger` with the given message. -/
def State.logMsg (st : State) (msg : String) : State :=
  { st with log := st.log ++ [msg] }

/-! ## Collect -/

/-- One of the four blocks `if v, err := strconv.ParseFloat(s, 64); err != nil`:
on an error log and count a failure, otherwise send the value. -/
def collectPrice (ParseFloat : String → Nat → Except String float64)
    (desc : Desc) (s : String) (msg : String) (labels : List String) (st : State) : State :=
  match ParseFloat s 64 with
  | .error _ => (st.logMsg msg).failuresInc "server"
  | .ok v => st.send (MustNewConstMetric desc .GaugeValue v labels)

/-- The body of `for _, pricing := range server.ServerType.Pricings`. -/
def collectPricing (c : ServerCollector) (ParseFloat : String → Nat → Except String float64)
    (server : Server) (pricingLabelsNet pricingLabelsGross : List String)
    (pricing : ServerTypeLocationPricing) (st : State) : State :=
  if server.Datacenter.Location.Name = pricing.Location.Name then
    let st := collectPrice ParseFloat c.PriceHourly pricing.Hourly.Net
      "Failed to parse hourly server type net costs" pricingLabelsNet st
    let st := collectPrice ParseFloat c.PriceHourly pricing.Hourly.Gross
      "Failed to parse hourly server type gross costs" pricingLabelsGross st
    let st := collectPrice ParseFloat c.PriceMonthly pricing.Monthly.Net
      "Failed to parse monthly server type net costs" pricingLabelsNet st
    let st := collectPrice ParseFloat c.PriceMonthly pricing.Monthly.Gross
      "Failed to parse monthly server type gross costs" pricingLabelsGross st
    st
  else st

/-- The body of `for _, server := range servers`. -/
def collectServer (c : ServerCollector) (ParseFloat : String → Nat → Except String float64)
    (server : Server) (st : State) : State :=
  let running : float64 := .finite 0
  let (network, st) :=
    match server.PrivateNet with
    | n :: _ =>
      let network := FormatInt n.Network.ID 10
      (network, st.logMsg "Server is in private network")
    | [] => ("public", st)
  let labels := [FormatInt server.ID 10, server.Name, server.Datacenter.Name, network]
  let running := if server.Status = "running" then .finite 1 else running
  let st := st.send (MustNewConstMetric c.Running .GaugeValue running labels)
  let st := st.send (MustNewConstMetric c.Created .GaugeValue (.ofInt server.Created) labels)
  let st := st.send (MustNewConstMetric c.IncludedTraffic .GaugeValue
    (.ofInt server.IncludedTraffic) labels)
  let st := st.send (MustNewConstMetric c.OutgoingTraffic .GaugeValue
    (.ofInt server.OutgoingTraffic) labels)
  let st := st.send (MustNewConstMetric c.IngoingTraffic .GaugeValue
    (.ofInt server.IngoingTraffic) labels)
  let st := st.send (MustNewConstMetric c.Cores .GaugeValue
    (.ofInt server.ServerType.Cores) labels)
  let st := st.send (MustNewConstMetric c.Memory .GaugeValue
    (.ofFloat32 ((server.ServerType.Memory.mulPow2 10).mulPow2 10)) labels)
  let st := st.send (MustNewConstMetric c.Disk .GaugeValue
    (.ofInt (mulInt (mulInt server.ServerType.Disk 1024) 1024)) labels)
  let backupEnabled : float64 := .finite 0
  let backupEnabled := if server.BackupWindow ≠ "" then .finite 1 else backupEnabled
  let st := st.send (MustNewConstMetric c.Backup .GaugeValue backupEnabled labels)
  let pricingLabelsNet :=
    [FormatInt server.ID 10, server.Name, server.Datacenter.Name, network, "net"]
  let pricingLabelsGross :=
    [FormatInt server.ID 10, server.Name, server.Datacenter.Name, network, "gross"]
  server.ServerType.Pricings.foldl
    (fun st pricing => collectPricing c ParseFloat server pricingLabelsNet pricingLabelsGross
      pricing st) st

/-- The method `ServerCollector.Collect`. `servers` and `err` are what
`c.client.Server.All(ctx)` returned within the deadline of `ctx`, `elapsed` is
the reading `time.Since(now).Seconds()` at the end of the cycle. -/
def ServerCollector.Collect (c : ServerCollector)
    (ParseFloat : String → Nat → Except String float64)
    (servers : List Server) (err : Option String) (elapsed : float64) (st : State) : State :=
  match err with
  | some _ =>
    let st := st.logMsg "Failed to fetch servers"
    st.failuresInc "server"
  | none =>
    let st := st.logMsg "Fetched servers"
    let st := servers.foldl (fun st server => collectServer c ParseFloat server st) st
    let st := st.logMsg "Processed server collector"
    st.durationObserve "server" elapsed

/-! ## What a step sent and counted -/

/-- The state at process start: nothing sent, no failure counted, no duration observed. -/
def State.empty : State :=
  { ch := [], failures := fun _ => 0, duration := fun _ => [], log := [] }

/-- The metrics sent between two states: what the channel holds in `after`
beyond what it held in `before`. -/
def emitted (before after : State) : List Metric :=
  after.ch.drop before.ch.length

/-- The metrics of a cycle with a successful fetch of `servers`, on an empty channel. -/
def observations (c : ServerCollector) (ParseFloat : String → Nat → Except String float64)
    (servers : List Server) : List Metric :=
  (c.Collect ParseFloat servers none (.finite 0) State.empty).ch

/-- The failures a cycle with a successful fetch of `servers` counts. -/
def failureCount (c : ServerCollector) (ParseFloat : String → Nat → Except String float64)
    (servers : List Server) : Nat :=
  (c.Collect ParseFloat servers none (.finite 0) State.empty).failures "server"

/-- Whether `strconv.ParseFloat(s, 64)` returns an error. -/
def parseFails (ParseFloat : String → Nat → Except String float64) (s : String) : Bool :=
  match ParseFloat s 64 with
  | .error _ => true
  | .ok _ => false

/-- The metric of one decimal string: none when it does not parse. -/
def priceMetrics (ParseFloat : String → Nat → Except String float64)
    (desc : Desc) (s : String) (labels : List String) : List Metric :=
  match ParseFloat s 64 with
  | .error _ => []
  | .ok v => [MustNewConstMetric desc .GaugeValue v labels]

/-- The number of the four decimal strings of a tier that do not parse. -/
def failingStrings (ParseFloat : String → Nat → Except String float64)
    (pricing : ServerTypeLocationPricing) : Nat :=
  ([pricing.Hourly.Net, pricing.Hourly.Gross, pricing.Monthly.Net, pricing.Monthly.Gross].filter
    (parseFails ParseFloat)).length

/-- The tiers of a server whose location name is that of its datacenter location. -/
def matchingTiers (server : Server) : List ServerTypeLocationPricing :=
  server.ServerType.Pricings.filter
    (fun p => decide (server.Datacenter.Location.Name = p.Location.Name))

/-- The number of metrics with the given descriptor and the given last label value. -/
def countPrice (desc : Desc) (vat : String) (ms : List Metric) : Nat :=
  ms.countP (fun m => decide (m.desc = desc ∧ m.labelValues.getLast? = some vat))

/-! ## The loops, as the lists they send -/

/-- What the body of the pricing loop sends for one tier. -/
def pricingMetrics (c : ServerCollector) (ParseFloat : String → Nat → Except String float64)
    (server : Server) (pricingLabelsNet pricingLabelsGross : List String)
    (pricing : ServerTypeLocationPricing) : List Metric :=
  if server.Datacenter.Location.Name = pricing.Location.Name then
    priceMetrics ParseFloat c.PriceHourly pricing.Hourly.Net pricingLabelsNet
      ++ priceMetrics ParseFloat c.PriceHourly pricing.Hourly.Gross pricingLabelsGross
      ++ priceMetrics ParseFloat c.PriceMonthly pricing.Monthly.Net pricingLabelsNet
      ++ priceMetrics ParseFloat c.PriceMonthly pricing.Monthly.Gross pricingLabelsGross
  else []

/-- The failures the body of the pricing loop counts for one tier. -/
def pricingFailures (ParseFloat : String → Nat → Except String float64)
    (server : Server) (pricing : ServerTypeLocationPricing) : Nat :=
  if server.Datacenter.Location.Name = pricing.Location.Name then failingStrings ParseFloat pricing
  else 0

/-- What the pricing loop sends over a list of tiers. -/
def tiersMetrics (c : ServerCollector) (ParseFloat : String → Nat → Except String float64)
    (server : Server) (pricingLabelsNet pricingLabelsGross : List String) :
    List ServerTypeLocationPricing → List Metric
  | [] => []
  | p :: ps =>
    pricingMetrics c ParseFloat server pricingLabelsNet pricingLabelsGross p
      ++ tiersMetrics c ParseFloat server pricingLabelsNet pricingLabelsGross ps

/-- The failures the pricing loop counts over a list of tiers. -/
def tiersFailures (ParseFloat : String → Nat → Except String float64) (server : Server) :
    List ServerTypeLocationPricing → Nat
  | [] => 0
  | p :: ps => pricingFailures ParseFloat server p + tiersFailures ParseFloat server ps

/-- The network label of a server: the first private network, or `public`. -/
def networkLabel (server : Server) : String :=
  match server.PrivateNet with
  | n :: _ => FormatInt n.Network.ID 10
  | [] => "public"

/-- The four label values every metric of a server starts with. -/
def baseLabels (server : Server) : List String :=
  [FormatInt server.ID 10, server.Name, server.Datacenter.Name, networkLabel server]

/-- The nine metrics sent for a server before its pricing loop. -/
def baseMetrics (c : ServerCollector) (server : Server) : List Metric :=
  [ MustNewConstMetric c.Running .GaugeValue
      (if server.Status = "running" then .finite 1 else .finite 0) (baseLabels server),
    MustNewConstMetric c.Created .GaugeValue (.ofInt server.Created) (baseLabels server),
    MustNewConstMetric c.IncludedTraffic .GaugeValue (.ofInt server.IncludedTraffic)
      (baseLabels server),
    MustNewConstMetric c.OutgoingTraffic .GaugeValue (.ofInt server.OutgoingTraffic)
      (baseLabels server),
    MustNewConstMetric c.IngoingTraffic .GaugeValue (.ofInt server.IngoingTraffic)
      (baseLabels server),
    MustNewConstMetric c.Cores .GaugeValue (.ofInt server.ServerType.Cores) (baseLabels server),
    MustNewConstMetric c.Memory .GaugeValue
      (.ofFloat32 ((server.ServerType.Memory.mulPow2 10).mulPow2 10)) (baseLabels server),
    MustNewConstMetric c.Disk .GaugeValue
      (.ofInt (mulInt (mulInt server.ServerType.Disk 1024) 1024)) (baseLabels server),
    MustNewConstMetric c.Backup .GaugeValue
      (if server.BackupWindow ≠ "" then .finite 1 else .finite 0) (baseLabels server) ]

/-- Everything sent for one server. -/
def serverMetrics (c : ServerCollector) (ParseFloat : String → Nat → Except String float64)
    (server : Server) : List Metric :=
  baseMetrics c server
    ++ tiersMetrics c ParseFloat server (baseLabels server ++ ["net"])
        (baseLabels server ++ ["gross"]) server.ServerType.Pricings

/-- Everything sent for a list of servers. -/
def serversMetrics (c : ServerCollector) (ParseFloat : String → Nat → Except String float64) :
    List Server → List Metric
  | [] => []
  | s :: ss => serverMetrics c ParseFloat s ++ serversMetrics c ParseFloat ss

/-- The failures counted for a list of servers. -/
def serversFailures (ParseFloat : String → Nat → Except String float64) : List Server → Nat
  | [] => 0
  | s :: ss =>
    tiersFailures ParseFloat s s.ServerType.Pricings + serversFailures ParseFloat ss

/-! ## Concrete inputs -/

/-- A finite table of `strconv.ParseFloat` results on strings whose value a
`float64` holds exactly; every other string is reported as a syntax error. -/
def tableParseFloat : String → Nat → Except String float64 := fun s _ =>
  if s = "0.5" then .ok (.finite (1 / 2))
  else if s = "0.75" then .ok (.finite (3 / 4))
  else if s = "3.00" then .ok (.finite 3)
  else if s = "3.50" then .ok (.finite (7 / 2))
  else .error "invalid syntax"

/-- A tier for `fsn1` with four well-formed strings. -/
def fsn1Tier : ServerTypeLocationPricing :=
  { Location := { Name := "fsn1" }
    Hourly := { Net := "0.5", Gross := "0.75" }
    Monthly := { Net := "3.00", Gross := "3.50" } }

/-- A tier for `fsn1` whose hourly gross string is malformed. -/
def malformedTier : ServerTypeLocationPricing :=
  { Location := { Name := "fsn1" }
    Hourly := { Net := "0.5", Gross := "0,75" }
    Monthly := { Net := "3.00", Gross := "3.50" } }

/-- A tier for another location. -/
def nbg1Tier : ServerTypeLocationPricing :=
  { Location := { Name := "nbg1" }
    Hourly := { Net := "0.5", Gross := "0.75" }
    Monthly := { Net := "3.00", Gross := "3.50" } }

/-- The server `web1` in `fsn1-dc8`, without private network, with one tier for its location. -/
def web1 : Server :=
  { ID := 42
    Name := "web1"
    Status := "running"
    Created := 1700000000
    Datacenter := { Name := "fsn1-dc8", Location := { Name := "fsn1" } }
    PrivateNet := []
    IncludedTraffic := 21990232555520
    OutgoingTraffic := 1024
    IngoingTraffic := 2048
    ServerType := { Cores := 2, Memory := .finite 4, Disk := 40, Pricings := [fsn1Tier] }
    BackupWindow := "22-02" }

/-- The same server attached to the private networks 7001 and 7002, in that order. -/
def web1Private : Server :=
  { web1 with PrivateNet := [{ Network := { ID := 7001 } }, { Network := { ID := 7002 } }] }

/-- The same server with two tiers for its own location. -/
def web1TwoTiers : Server :=
  { web1 with ServerType := { web1.ServerType with Pricings := [fsn1Tier, fsn1Tier] } }

/-- The same server with no tier for its own location. -/
def web1NoTier : Server :=
  { web1 with ServerType := { web1.ServerType with Pricings := [nbg1Tier] } }

/-- The same server with a disk of `2 ^ 43` and a memory of `2 ^ 108`. -/
def web1Huge : Server :=
  { web1 with
    ServerType := { web1.ServerType with Disk := 2 ^ 43, Memory := .finite (2 ^ 108) } }

/-! ## The loops send and count what their lists say -/

section loops

variable (c : ServerCollector) (ParseFloat : String → Nat → Except String float64)

theorem collectPrice_ch (desc : Desc) (s msg : String) (labels : List String) (st : State) :
    (collectPrice ParseFloat desc s msg labels st).ch
      = st.ch ++ priceMetrics ParseFloat desc s labels := by
  unfold collectPrice priceMetrics
  cases ParseFloat s 64 <;> simp [State.send, State.logMsg, State.failuresInc]

theorem collectPrice_failures (desc : Desc) (s msg : String) (labels : List String)
    (st : State) (k : String) :
    (collectPrice ParseFloat desc s msg labels st).failures k
      = st.failures k + (if k = "server" then (parseFails ParseFloat s).toNat else 0) := by
  unfold collectPrice parseFails
  cases ParseFloat s 64 <;> simp [State.send, State.logMsg, State.failuresInc]
  split <;> simp

theorem collectPrice_duration (desc : Desc) (s msg : String) (labels : List String)
    (st : State) :
    (collectPrice ParseFloat desc s msg labels st).duration = st.duration := by
  unfold collectPrice
  cases ParseFloat s 64 <;> simp [State.send, State.logMsg, State.failuresInc]

theorem failingStrings_eq (p : ServerTypeLocationPricing) :
    failingStrings ParseFloat p
      = (parseFails ParseFloat p.Hourly.Net).toNat + (parseFails ParseFloat p.Hourly.Gross).toNat
        + (parseFails ParseFloat p.Monthly.Net).toNat
        + (parseFails ParseFloat p.Monthly.Gross).toNat := by
  unfold failingStrings
  simp only [List.filter_cons, List.filter_nil]
  split_ifs <;> simp [*]

theorem collectPricing_ch (server : Server) (ln lg : List String)
    (p : ServerTypeLocationPricing) (st : State) :
    (collectPricing c ParseFloat server ln lg p st).ch
      = st.ch ++ pricingMetrics c ParseFloat server ln lg p := by
  unfold collectPricing pricingMetrics
  split <;> simp [collectPrice_ch]

theorem collectPricing_failures (server : Server) (ln lg : List String)
    (p : ServerTypeLocationPricing) (st : State) (k : String) :
    (collectPricing c ParseFloat server ln lg p st).failures k
      = st.failures k + (if k = "server" then pricingFailures ParseFloat server p else 0) := by
  unfold collectPricing pricingFailures
  split
  · simp only [collectPrice_failures, failingStrings_eq]
    split <;> simp [Nat.add_assoc]
  · simp

theorem collectPricing_duration (server : Server) (ln lg : List String)
    (p : ServerTypeLocationPricing) (st : State) :
    (collectPricing c ParseFloat server ln lg p st).duration = st.duration := by
  unfold collectPricing
  split <;> simp [collectPrice_duration]

theorem tiers_foldl_ch (server : Server) (ln lg : List String)
    (ps : List ServerTypeLocationPricing) (st : State) :
    (ps.foldl (fun st p => collectPricing c ParseFloat server ln lg p st) st).ch
      = st.ch ++ tiersMetrics c ParseFloat server ln lg ps := by
  induction ps generalizing st with
  | nil => simp [tiersMetrics]
  | cons p ps ih => simp [tiersMetrics, ih, collectPricing_ch]

theorem tiers_foldl_failures (server : Server) (ln lg : List String)
    (ps : List ServerTypeLocationPricing) (st : State) (k : String) :
    (ps.foldl (fun st p => collectPricing c ParseFloat server ln lg p st) st).failures k
      = st.failures k + (if k = "server" then tiersFailures ParseFloat server ps else 0) := by
  induction ps generalizing st with
  | nil => simp [tiersFailures]
  | cons p ps ih =>
    simp only [List.foldl_cons, ih, collectPricing_failures, tiersFailures]
    split <;> simp [Nat.add_assoc]

theorem tiers_foldl_duration (server : Server) (ln lg : List String)
    (ps : List ServerTypeLocationPricing) (st : State) :
    (ps.foldl (fun st p => collectPricing c ParseFloat server ln lg p st) st).duration
      = st.duration := by
  induction ps generalizing st with
  | nil => simp
  | cons p ps ih => simp [ih, collectPricing_duration]

theorem collectServer_ch (server : Server) (st : State) :
    (collectServer c ParseFloat server st).ch = st.ch ++ serverMetrics c ParseFloat server := by
  unfold collectServer serverMetrics baseMetrics baseLabels networkLabel
  cases server.PrivateNet <;>
    simp [tiers_foldl_ch, State.send, State.logMsg]

theorem collectServer_failures (server : Server) (st : State) (k : String) :
    (collectServer c ParseFloat server st).failures k
      = st.failures k
        + (if k = "server" then tiersFailures ParseFloat server server.ServerType.Pricings
           else 0) := by
  unfold collectServer
  cases server.PrivateNet <;>
    simp [tiers_foldl_failures, State.send, State.logMsg]

theorem collectServer_duration (server : Server) (st : State) :
    (collectServer c ParseFloat server st).duration = st.duration := by
  unfold collectServer
  cases server.PrivateNet <;>
    simp [tiers_foldl_duration, State.send, State.logMsg]

theorem servers_foldl_ch (servers : List Server) (st : State) :
    (servers.foldl (fun st server => collectServer c ParseFloat server st) st).ch
      = st.ch ++ serversMetrics c ParseFloat servers := by
  induction servers generalizing st with
  | nil => simp [serversMetrics]
  | cons s ss ih => simp [serversMetrics, ih, collectServer_ch]

theorem servers_foldl_failures (servers : List Server) (st : State) (k : String) :
    (servers.foldl (fun st server => collectServer c ParseFloat server st) st).failures k
      = st.failures k + (if k = "server" then serversFailures ParseFloat servers else 0) := by
  induction servers generalizing st with
  | nil => simp [serversFailures]
  | cons s ss ih =>
    simp only [List.foldl_cons, ih, collectServer_failures, serversFailures]
    split <;> simp [Nat.add_assoc]

theorem servers_foldl_duration (servers : List Server) (st : State) :
    (servers.foldl (fun st server => collectServer c ParseFloat server st) st).duration
      = st.duration := by
  induction servers generalizing st with
  | nil => simp
  | cons s ss ih => simp [ih, collectServer_duration]

theorem Collect_ok_ch (servers : List Server) (elapsed : float64) (st : State) :
    (c.Collect ParseFloat servers none elapsed st).ch
      = st.ch ++ serversMetrics c ParseFloat servers := by
  simp [ServerCollector.Collect, servers_foldl_ch, State.logMsg, State.durationObserve]

theorem Collect_ok_failures (servers : List Server) (elapsed : float64) (st : State)
    (k : String) :
    (c.Collect ParseFloat servers none elapsed st).failures k
      = st.failures k + (if k = "server" then serversFailures ParseFloat servers else 0) := by
  simp [ServerCollector.Collect, servers_foldl_failures, State.logMsg, State.durationObserve]

theorem emitted_append (st st1 : State) (ms : List Metric) (h : st1.ch = st.ch ++ ms) :
    emitted st st1 = ms := by
  simp [emitted, h]

theorem emitted_collectServer (server : Server) (st : State) :
    emitted st (collectServer c ParseFloat server st) = serverMetrics c ParseFloat server :=
  emitted_append _ _ _ (collectServer_ch c ParseFloat server st)

end loops

section tiers

variable (c : ServerCollector) (ParseFloat : String → Nat → Except String float64)

theorem mem_priceMetrics {desc : Desc} {s : String} {labels : List String} {m : Metric}
    (h : m ∈ priceMetrics ParseFloat desc s labels) :
    ∃ v, ParseFloat s 64 = .ok v ∧ m = MustNewConstMetric desc .GaugeValue v labels := by
  unfold priceMetrics at h
  cases hp : ParseFloat s 64 with
  | error e => simp [hp] at h
  | ok v => exact ⟨v, rfl, by simpa [hp] using h⟩

theorem mem_tiersMetrics {server : Server} {ln lg : List String}
    {ps : List ServerTypeLocationPricing} {m : Metric}
    (h : m ∈ tiersMetrics c ParseFloat server ln lg ps) :
    ∃ v, m = MustNewConstMetric c.PriceHourly .GaugeValue v ln
      ∨ m = MustNewConstMetric c.PriceHourly .GaugeValue v lg
      ∨ m = MustNewConstMetric c.PriceMonthly .GaugeValue v ln
      ∨ m = MustNewConstMetric c.PriceMonthly .GaugeValue v lg := by
  induction ps with
  | nil => simp [tiersMetrics] at h
  | cons p ps ih =>
    simp only [tiersMetrics, List.mem_append] at h
    rcases h with h | h
    · unfold pricingMetrics at h
      split at h
      · simp only [List.mem_append] at h
        rcases h with ((h | h) | h) | h <;>
          obtain ⟨v, -, hv⟩ := mem_priceMetrics ParseFloat h <;>
          exact ⟨v, by simp [hv]⟩
      · simp at h
    · exact ih h

theorem tiersMetrics_no_match (server : Server) (ln lg : List String)
    (ps : List ServerTypeLocationPricing)
    (h : ∀ p ∈ ps, p.Location.Name ≠ server.Datacenter.Location.Name) :
    tiersMetrics c ParseFloat server ln lg ps = []
      ∧ tiersFailures ParseFloat server ps = 0 := by
  induction ps with
  | nil => simp [tiersMetrics, tiersFailures]
  | cons p ps ih =>
    have hp : ¬ server.Datacenter.Location.Name = p.Location.Name :=
      fun e => h p (List.mem_cons_self _ _) e.symm
    have := ih (fun q hq => h q (List.mem_cons_of_mem _ hq))
    simp [tiersMetrics, tiersFailures, pricingMetrics, pricingFailures, hp, this]

theorem countP_priceMetrics_le (f : Metric → Bool) (desc : Desc) (s : String)
    (labels : List String) :
    (priceMetrics ParseFloat desc s labels).countP f ≤ 1 := by
  unfold priceMetrics
  cases ParseFloat s 64 with
  | error e => simp
  | ok v =>
    simp only [List.countP_cons, List.countP_nil]
    split <;> simp

theorem countP_priceMetrics_zero (f : Metric → Bool) (desc : Desc) (s : String)
    (labels : List String) (h : ∀ v, f (MustNewConstMetric desc .GaugeValue v labels) = false) :
    (priceMetrics ParseFloat desc s labels).countP f = 0 := by
  unfold priceMetrics
  cases ParseFloat s 64 with
  | error e => simp
  | ok v => simp [h v]

theorem FormatInt_ten (i : Int) : FormatInt i 10 = toString i := by
  unfold FormatInt
  cases i with
  | ofNat n =>
    have : ¬ (Int.ofNat n < 0) := by simp
    simp [this]
    rfl
  | negSucc n =>
    have : Int.negSucc n < 0 := Int.negSucc_lt_zero n
    simp [this]
    rfl

end tiers

theorem mem_serverMetrics {c : ServerCollector}
    {ParseFloat : String → Nat → Except String float64} {server : Server} {m : Metric}
    (h : m ∈ serverMetrics c ParseFloat server) :
    m ∈ baseMetrics c server
      ∨ ∃ v, m = MustNewConstMetric c.PriceHourly .GaugeValue v (baseLabels server ++ ["net"])
        ∨ m = MustNewConstMetric c.PriceHourly .GaugeValue v (baseLabels server ++ ["gross"])
        ∨ m = MustNewConstMetric c.PriceMonthly .GaugeValue v (baseLabels server ++ ["net"])
        ∨ m = MustNewConstMetric c.PriceMonthly .GaugeValue v (baseLabels server ++ ["gross"]) := by
  unfold serverMetrics at h
  rcases List.mem_append.1 h with h | h
  · exact Or.inl h
  · exact Or.inr (mem_tiersMetrics c ParseFloat h)

theorem baseMetrics_labelValues {c : ServerCollector} {server : Server} {m : Metric}
    (h : m ∈ baseMetrics c server) : m.labelValues = baseLabels server := by
  simp only [baseMetrics, List.mem_cons, List.mem_singleton, List.not_mem_nil, or_false] at h
  rcases h with h | h | h | h | h | h | h | h | h <;> simp [h, MustNewConstMetric]

theorem filter_desc_serverMetrics (ParseFloat : String → Nat → Except String float64)
    (server : Server) (desc : Desc) (h1 : desc ≠ NewServerCollector.PriceHourly)
    (h2 : desc ≠ NewServerCollector.PriceMonthly) :
    (serverMetrics NewServerCollector ParseFloat server).filter (fun m => decide (m.desc = desc))
      = (baseMetrics NewServerCollector server).filter (fun m => decide (m.desc = desc)) := by
  unfold serverMetrics
  rw [List.filter_append]
  have : (tiersMetrics NewServerCollector ParseFloat server (baseLabels server ++ ["net"])
      (baseLabels server ++ ["gross"]) server.ServerType.Pricings).filter
        (fun m => decide (m.desc = desc)) = [] := by
    rw [List.filter_eq_nil_iff]
    intro m hm
    obtain ⟨v, hv | hv | hv | hv⟩ := mem_tiersMetrics NewServerCollector ParseFloat hm <;>
      simp [hv, MustNewConstMetric, Ne.symm h1, Ne.symm h2]
  rw [this, List.append_nil]

theorem wrapInt_eq (n : Int) (h1 : -2 ^ 63 ≤ n) (h2 : n < 2 ^ 63) : wrapInt n = n := by
  unfold wrapInt
  rw [Int.emod_eq_of_lt (by omega) (by omega)]
  omega

theorem roundToFloat64_mul_two_pow (m : Int) (k : Nat) (hm : m.natAbs < 2 ^ 53) :
    roundToFloat64 (m * 2 ^ k) = m * 2 ^ k := by
  unfold roundToFloat64
  simp only
  split
  · rfl
  · rename_i hbig
    have habs : (m * 2 ^ k).natAbs = m.natAbs * 2 ^ k := by
      rw [Int.natAbs_mul, Int.natAbs_pow]
      rfl
    have hne : (m * 2 ^ k).natAbs ≠ 0 := by
      intro h0
      rw [h0] at hbig
      exact hbig (by positivity)
    have hlt : (m * 2 ^ k).natAbs < 2 ^ (53 + k) := by
      rw [habs, Nat.pow_add]
      exact Nat.mul_lt_mul_of_lt_of_le hm (Nat.le_refl _) (by positivity)
    have hlog : (m * 2 ^ k).natAbs.log2 < 53 + k := (Nat.log2_lt hne).2 hlt
    have hek : (m * 2 ^ k).natAbs.log2 - 52 ≤ k := by omega
    have hdvd : 2 ^ ((m * 2 ^ k).natAbs.log2 - 52) ∣ (m * 2 ^ k).natAbs := by
      have hd := Dvd.dvd.mul_left (Nat.pow_dvd_pow 2 hek) m.natAbs
      rwa [← habs] at hd
    have hr : (m * 2 ^ k).natAbs % 2 ^ ((m * 2 ^ k).natAbs.log2 - 52) = 0 :=
      Nat.mod_eq_zero_of_dvd hdvd
    have hhalf : 0 < 2 ^ ((m * 2 ^ k).natAbs.log2 - 52 - 1) := by positivity
    rw [hr]
    have hcond : ¬ (2 ^ ((m * 2 ^ k).natAbs.log2 - 52 - 1) < 0
        ∨ (0 = 2 ^ ((m * 2 ^ k).natAbs.log2 - 52 - 1)
          ∧ (m * 2 ^ k).natAbs / 2 ^ ((m * 2 ^ k).natAbs.log2 - 52) % 2 = 1)) := by
      omega
    rw [if_neg hcond, Nat.div_mul_cancel hdvd]
    exact Int.sign_mul_natAbs _

theorem mulInt_disk (d : Int) (h1 : -2 ^ 43 ≤ d) (h2 : d < 2 ^ 43) :
    mulInt (mulInt d 1024) 1024 = d * 2 ^ 20 := by
  unfold mulInt
  rw [wrapInt_eq (d * 1024) (by omega) (by omega), wrapInt_eq (d * 1024 * 1024) (by omega)
    (by omega)]
  omega

/-! ## A failed fetch -/

/-- C1: a cycle whose fetch fails sends no metric, whatever server list came
back with the error, counts exactly one failure for `server`, and does with a
non-empty list what it does with the empty one: no server is processed. -/
theorem fetch_failure_sends_nothing (c : ServerCollector)
    (ParseFloat : String → Nat → Except String float64) (servers : List Server)
    (e : String) (elapsed : float64) (st : State) :
    (c.Collect ParseFloat servers (some e) elapsed st).ch = st.ch
      ∧ emitted st (c.Collect ParseFloat servers (some e) elapsed st) = []
      ∧ (c.Collect ParseFloat servers (some e) elapsed st).failures "server"
          = st.failures "server" + 1
      ∧ c.Collect ParseFloat servers (some e) elapsed st
          = c.Collect ParseFloat [] (some e) elapsed st := by
  refine ⟨?_, ?_, ?_, rfl⟩ <;>
    simp [ServerCollector.Collect, emitted, State.logMsg, State.failuresInc]

/-- C2: on a failed fetch `Collect` returns before the duration is observed, so
the histogram for `server` holds what it held before the cycle; on a successful
fetch the same cycle appends exactly the elapsed duration. -/
theorem fetch_failure_skips_duration (c : ServerCollector)
    (ParseFloat : String → Nat → Except String float64) (servers : List Server)
    (e : String) (elapsed : float64) (st : State) :
    (c.Collect ParseFloat servers (some e) elapsed st).duration "server"
        = st.duration "server"
      ∧ (NewServerCollector.Collect ParseFloat servers none elapsed st).duration "server"
        = st.duration "server" ++ [elapsed] := by
  constructor
  · simp [ServerCollector.Collect, State.logMsg, State.failuresInc]
  · simp [ServerCollector.Collect, State.logMsg, State.durationObserve, servers_foldl_duration]

/-! ## Servers are processed one after the other -/

/-- C10: with a successful fetch the metrics of a server list are those of its
servers, one server after the other in list order, and the failures add up:
both are homomorphisms for list concatenation, each server contributes what
the loop body sends for it alone, and a cycle appends them to whatever the
channel and the counter held. -/
theorem observations_append
    (ParseFloat : String → Nat → Except String float64) (xs ys : List Server) :
    observations NewServerCollector ParseFloat (xs ++ ys)
        = observations NewServerCollector ParseFloat xs ++ observations NewServerCollector ParseFloat ys
      ∧ failureCount NewServerCollector ParseFloat (xs ++ ys)
        = failureCount NewServerCollector ParseFloat xs + failureCount NewServerCollector ParseFloat ys
      ∧ (∀ (s : Server) (st : State),
          emitted st (collectServer NewServerCollector ParseFloat s st) = observations NewServerCollector ParseFloat [s]
          ∧ (collectServer NewServerCollector ParseFloat s st).failures "server"
            = st.failures "server" + failureCount NewServerCollector ParseFloat [s])
      ∧ (∀ (elapsed : float64) (st : State),
          (NewServerCollector.Collect ParseFloat xs none elapsed st).ch = st.ch ++ observations NewServerCollector ParseFloat xs
          ∧ (NewServerCollector.Collect ParseFloat xs none elapsed st).failures "server"
            = st.failures "server" + failureCount NewServerCollector ParseFloat xs) := by
  have hm : ∀ as bs : List Server, serversMetrics NewServerCollector ParseFloat (as ++ bs)
      = serversMetrics NewServerCollector ParseFloat as ++ serversMetrics NewServerCollector ParseFloat bs := by
    intro as bs
    induction as with
    | nil => simp [serversMetrics]
    | cons a as ih => simp [serversMetrics, ih]
  have hf : ∀ as bs : List Server, serversFailures ParseFloat (as ++ bs)
      = serversFailures ParseFloat as + serversFailures ParseFloat bs := by
    intro as bs
    induction as with
    | nil => simp [serversFailures]
    | cons a as ih => simp [serversFailures, ih, Nat.add_assoc]
  have ho : ∀ zs, observations NewServerCollector ParseFloat zs = serversMetrics NewServerCollector ParseFloat zs := by
    intro zs
    simp [observations, Collect_ok_ch, State.empty]
  have hc : ∀ zs, failureCount NewServerCollector ParseFloat zs = serversFailures ParseFloat zs := by
    intro zs
    simp [failureCount, Collect_ok_failures, State.empty]
  refine ⟨?_, ?_, ?_, ?_⟩
  · simp [ho, hm]
  · simp [hc, hf]
  · intro s st
    simp [ho, hc, emitted_collectServer, collectServer_failures, serversMetrics,
      serversFailures]
  · intro elapsed st
    simp [ho, hc, Collect_ok_ch, Collect_ok_failures]

/-! ## Pricing -/

/-- C3, as stated, fails: for a server with two tiers for its own location
`Collect` sends two `net` metrics of `hcloud_server_price_hourly`, not at most one. -/
theorem two_matching_tiers_two_net_hourly :
    ¬ countPrice NewServerCollector.PriceHourly "net"
        (emitted State.empty
          (collectServer NewServerCollector tableParseFloat web1TwoTiers State.empty)) ≤ 1 := by
  decide

/-- C3, amended: for every server and every pricing list, each of the four
kinds of price metric (hourly or monthly, `net` or `gross`) is sent at most
once per tier whose location name is that of the server: their number is at
most the number of such tiers. -/
theorem price_count_le_matchingTiers
    (ParseFloat : String → Nat → Except String float64) (server : Server) (st : State) :
    countPrice NewServerCollector.PriceHourly "net"
        (emitted st (collectServer NewServerCollector ParseFloat server st))
        ≤ (matchingTiers server).length
      ∧ countPrice NewServerCollector.PriceHourly "gross"
        (emitted st (collectServer NewServerCollector ParseFloat server st))
        ≤ (matchingTiers server).length
      ∧ countPrice NewServerCollector.PriceMonthly "net"
        (emitted st (collectServer NewServerCollector ParseFloat server st))
        ≤ (matchingTiers server).length
      ∧ countPrice NewServerCollector.PriceMonthly "gross"
        (emitted st (collectServer NewServerCollector ParseFloat server st))
        ≤ (matchingTiers server).length := by
  have key : ∀ (desc : Desc) (vat : String),
      (desc = NewServerCollector.PriceHourly ∨ desc = NewServerCollector.PriceMonthly) →
      (vat = "net" ∨ vat = "gross") →
      countPrice desc vat (emitted st (collectServer NewServerCollector ParseFloat server st))
        ≤ (matchingTiers server).length := by
    intro desc vat hd hv
    rw [emitted_collectServer, serverMetrics]
    unfold countPrice matchingTiers
    rw [List.countP_append]
    have hb : (baseMetrics NewServerCollector server).countP
        (fun m => decide (m.desc = desc ∧ m.labelValues.getLast? = some vat)) = 0 := by
      rcases hd with rfl | rfl <;>
        simp [baseMetrics, MustNewConstMetric, NewServerCollector, NewDesc, List.countP_cons]
    rw [hb, Nat.zero_add]
    induction server.ServerType.Pricings with
    | nil => simp [tiersMetrics]
    | cons p ps ih =>
      simp only [tiersMetrics, List.countP_append, List.filter_cons]
      unfold pricingMetrics
      by_cases hm : server.Datacenter.Location.Name = p.Location.Name
      · have hdec : decide (server.Datacenter.Location.Name = p.Location.Name) = true :=
          decide_eq_true hm
        rw [if_pos hm]
        simp only [hdec, if_true, List.length_cons, List.countP_append]
        have hsum : ∀ a b c d : Nat, a + b + c + d ≤ 1 →
            ∀ x y : Nat, x ≤ y → a + b + c + d + x ≤ y + 1 := by omega
        apply hsum _ _ _ _ _ _ _ ih
        rcases hd with rfl | rfl <;> rcases hv with rfl | rfl
        · rw [countP_priceMetrics_zero ParseFloat _ _ _ (baseLabels server ++ ["gross"]),
            countP_priceMetrics_zero ParseFloat _ NewServerCollector.PriceMonthly,
            countP_priceMetrics_zero ParseFloat _ NewServerCollector.PriceMonthly]
          · simpa using countP_priceMetrics_le ParseFloat _ _ _ _
          all_goals simp [MustNewConstMetric, NewServerCollector, NewDesc]
        · rw [countP_priceMetrics_zero ParseFloat _ _ _ (baseLabels server ++ ["net"]),
            countP_priceMetrics_zero ParseFloat _ NewServerCollector.PriceMonthly,
            countP_priceMetrics_zero ParseFloat _ NewServerCollector.PriceMonthly]
          · simpa using countP_priceMetrics_le ParseFloat _ _ _ _
          all_goals simp [MustNewConstMetric, NewServerCollector, NewDesc]
        · rw [countP_priceMetrics_zero ParseFloat _ NewServerCollector.PriceHourly,
            countP_priceMetrics_zero ParseFloat _ NewServerCollector.PriceHourly,
            countP_priceMetrics_zero ParseFloat _ _ _ (baseLabels server ++ ["gross"])]
          · simpa using countP_priceMetrics_le ParseFloat _ _ _ _
          all_goals simp [MustNewConstMetric, NewServerCollector, NewDesc]
        · rw [countP_priceMetrics_zero ParseFloat _ NewServerCollector.PriceHourly,
            countP_priceMetrics_zero ParseFloat _ NewServerCollector.PriceHourly,
            countP_priceMetrics_zero ParseFloat _ _ _ (baseLabels server ++ ["net"])]
          · simpa using countP_priceMetrics_le ParseFloat _ _ _ _
          all_goals simp [MustNewConstMetric, NewServerCollector, NewDesc]
      · have hdec : decide (server.Datacenter.Location.Name = p.Location.Name) = false :=
          decide_eq_false hm
        rw [if_neg hm]
        simpa [hdec] using ih
  exact ⟨key _ _ (Or.inl rfl) (Or.inl rfl), key _ _ (Or.inl rfl) (Or.inr rfl),
    key _ _ (Or.inr rfl) (Or.inl rfl), key _ _ (Or.inr rfl) (Or.inr rfl)⟩

/-- C4: for every server and every tier whose location name is that of the
server, the body of the pricing loop, run with the two label lists `Collect`
builds, sends for the four decimal strings, in the order hourly net, hourly
gross, monthly net, monthly gross, one metric per string that parses and none
for a string that does not: `4` minus the number of failing strings in all,
one failure counted per failing string, every parsed value under its own
descriptor and `vat` label; with exactly one failing string that is three
metrics and one failure. -/
theorem collectPricing_matching
    (ParseFloat : String → Nat → Except String float64) (server : Server)
    (pricing : ServerTypeLocationPricing) (st : State)
    (h : server.Datacenter.Location.Name = pricing.Location.Name) :
    emitted st (collectPricing NewServerCollector ParseFloat server (baseLabels server ++ ["net"])
          (baseLabels server ++ ["gross"]) pricing st)
        = priceMetrics ParseFloat NewServerCollector.PriceHourly pricing.Hourly.Net (baseLabels server ++ ["net"])
          ++ priceMetrics ParseFloat NewServerCollector.PriceHourly pricing.Hourly.Gross
              (baseLabels server ++ ["gross"])
          ++ priceMetrics ParseFloat NewServerCollector.PriceMonthly pricing.Monthly.Net
              (baseLabels server ++ ["net"])
          ++ priceMetrics ParseFloat NewServerCollector.PriceMonthly pricing.Monthly.Gross
              (baseLabels server ++ ["gross"])
      ∧ (emitted st (collectPricing NewServerCollector ParseFloat server (baseLabels server ++ ["net"])
          (baseLabels server ++ ["gross"]) pricing st)).length
        = 4 - failingStrings ParseFloat pricing
      ∧ (collectPricing NewServerCollector ParseFloat server (baseLabels server ++ ["net"])
          (baseLabels server ++ ["gross"]) pricing st).failures "server"
        = st.failures "server" + failingStrings ParseFloat pricing
      ∧ (∀ v, ParseFloat pricing.Hourly.Net 64 = .ok v →
          MustNewConstMetric NewServerCollector.PriceHourly .GaugeValue v (baseLabels server ++ ["net"])
            ∈ emitted st (collectPricing NewServerCollector ParseFloat server (baseLabels server ++ ["net"])
                (baseLabels server ++ ["gross"]) pricing st))
      ∧ (∀ v, ParseFloat pricing.Hourly.Gross 64 = .ok v →
          MustNewConstMetric NewServerCollector.PriceHourly .GaugeValue v (baseLabels server ++ ["gross"])
            ∈ emitted st (collectPricing NewServerCollector ParseFloat server (baseLabels server ++ ["net"])
                (baseLabels server ++ ["gross"]) pricing st))
      ∧ (∀ v, ParseFloat pricing.Monthly.Net 64 = .ok v →
          MustNewConstMetric NewServerCollector.PriceMonthly .GaugeValue v (baseLabels server ++ ["net"])
            ∈ emitted st (collectPricing NewServerCollector ParseFloat server (baseLabels server ++ ["net"])
                (baseLabels server ++ ["gross"]) pricing st))
      ∧ (∀ v, ParseFloat pricing.Monthly.Gross 64 = .ok v →
          MustNewConstMetric NewServerCollector.PriceMonthly .GaugeValue v (baseLabels server ++ ["gross"])
            ∈ emitted st (collectPricing NewServerCollector ParseFloat server (baseLabels server ++ ["net"])
                (baseLabels server ++ ["gross"]) pricing st))
      ∧ (failingStrings ParseFloat pricing = 1 →
          (emitted st (collectPricing NewServerCollector ParseFloat server (baseLabels server ++ ["net"])
            (baseLabels server ++ ["gross"]) pricing st)).length = 3
          ∧ (collectPricing NewServerCollector ParseFloat server (baseLabels server ++ ["net"])
              (baseLabels server ++ ["gross"]) pricing st).failures "server"
            = st.failures "server" + 1) := by
  have he := emitted_append _ _ _
    (collectPricing_ch NewServerCollector ParseFloat server (baseLabels server ++ ["net"])
      (baseLabels server ++ ["gross"]) pricing st)
  have hf := collectPricing_failures NewServerCollector ParseFloat server (baseLabels server ++ ["net"])
    (baseLabels server ++ ["gross"]) pricing st "server"
  simp only [pricingMetrics, pricingFailures, if_pos h, if_true] at he hf
  have hlen : ∀ (desc : Desc) (s : String) (l : List String),
      (priceMetrics ParseFloat desc s l).length = 1 - (parseFails ParseFloat s).toNat := by
    intro desc s l
    unfold priceMetrics parseFails
    cases ParseFloat s 64 <;> simp
  have hmem : ∀ (desc : Desc) (s : String) (l : List String) (v : float64),
      ParseFloat s 64 = .ok v →
      MustNewConstMetric desc .GaugeValue v l ∈ priceMetrics ParseFloat desc s l := by
    intro desc s l v hv
    simp [priceMetrics, hv]
  have hL : (emitted st (collectPricing NewServerCollector ParseFloat server (baseLabels server ++ ["net"])
      (baseLabels server ++ ["gross"]) pricing st)).length
        = 4 - failingStrings ParseFloat pricing := by
    rw [he, failingStrings_eq]
    simp only [List.length_append, hlen]
    cases parseFails ParseFloat pricing.Hourly.Net <;>
      cases parseFails ParseFloat pricing.Hourly.Gross <;>
      cases parseFails ParseFloat pricing.Monthly.Net <;>
      cases parseFails ParseFloat pricing.Monthly.Gross <;> rfl
  refine ⟨he, hL, hf, ?_, ?_, ?_, ?_, ?_⟩
  · intro v hv
    rw [he]
    simp [hmem _ _ _ v hv]
  · intro v hv
    rw [he]
    simp [hmem _ _ _ v hv]
  · intro v hv
    rw [he]
    simp [hmem _ _ _ v hv]
  · intro v hv
    rw [he]
    simp [hmem _ _ _ v hv]
  · intro h1
    rw [hL, hf, h1]
    exact ⟨rfl, rfl⟩

/-- C4 at a tier of `web1` whose hourly gross string is malformed: three
metrics and one failure. -/
theorem collectPricing_matching_witness :
    web1.Datacenter.Location.Name = malformedTier.Location.Name
      ∧ failingStrings tableParseFloat malformedTier = 1
      ∧ (emitted State.empty (collectPricing NewServerCollector tableParseFloat web1
            (baseLabels web1 ++ ["net"]) (baseLabels web1 ++ ["gross"]) malformedTier
            State.empty)).length = 3
      ∧ (collectPricing NewServerCollector tableParseFloat web1
            (baseLabels web1 ++ ["net"]) (baseLabels web1 ++ ["gross"]) malformedTier
            State.empty).failures "server" = State.empty.failures "server" + 1 :=
  ⟨by decide, by decide,
    (collectPricing_matching tableParseFloat web1 malformedTier State.empty
      (by decide)).2.2.2.2.2.2.2 (by decide)⟩

/-! ## A server without a tier for its location -/

/-- C7: for a server none of whose tiers (if any) has the location name of the
server, `Collect` sends exactly the nine metrics running, created, included,
outgoing and incoming traffic, cores, memory, disk and backup, in that order,
counts no failure, and these nine are the first nine metrics of the same
server under any other pricing list and any other parser: they do not depend
on the pricing list. -/
theorem collectServer_no_matching_tier
    (ParseFloat : String → Nat → Except String float64) (server : Server) (st : State)
    (h : ∀ p ∈ server.ServerType.Pricings,
      p.Location.Name ≠ server.Datacenter.Location.Name) :
    (emitted st (collectServer NewServerCollector ParseFloat server st)).map (fun m => m.desc)
        = [NewServerCollector.Running, NewServerCollector.Created, NewServerCollector.IncludedTraffic, NewServerCollector.OutgoingTraffic, NewServerCollector.IngoingTraffic,
            NewServerCollector.Cores, NewServerCollector.Memory, NewServerCollector.Disk, NewServerCollector.Backup]
      ∧ (collectServer NewServerCollector ParseFloat server st).failures = st.failures
      ∧ ∀ (pricings : List ServerTypeLocationPricing)
          (ParseFloat2 : String → Nat → Except String float64) (st2 : State),
          (emitted st2 (collectServer NewServerCollector ParseFloat2
            { server with ServerType := { server.ServerType with Pricings := pricings } }
            st2)).take 9
          = emitted st (collectServer NewServerCollector ParseFloat server st) := by
  have h0 := tiersMetrics_no_match NewServerCollector ParseFloat server (baseLabels server ++ ["net"])
    (baseLabels server ++ ["gross"]) server.ServerType.Pricings h
  refine ⟨?_, ?_, ?_⟩
  · rw [emitted_collectServer, serverMetrics, h0.1]
    simp [baseMetrics, MustNewConstMetric]
  · funext k
    rw [collectServer_failures, h0.2]
    simp
  · intro pricings ParseFloat2 st2
    rw [emitted_collectServer, emitted_collectServer, serverMetrics, serverMetrics, h0.1]
    simp [baseMetrics, baseLabels, networkLabel, MustNewConstMetric]

/-- C7 at `web1` with a single tier for `nbg1`. -/
theorem collectServer_no_matching_tier_witness :
    (∀ p ∈ web1NoTier.ServerType.Pricings,
        p.Location.Name ≠ web1NoTier.Datacenter.Location.Name)
      ∧ (emitted State.empty
          (collectServer NewServerCollector tableParseFloat web1NoTier State.empty)).map
            (fun m => m.desc)
        = [NewServerCollector.Running, NewServerCollector.Created,
            NewServerCollector.IncludedTraffic, NewServerCollector.OutgoingTraffic,
            NewServerCollector.IngoingTraffic, NewServerCollector.Cores,
            NewServerCollector.Memory, NewServerCollector.Disk, NewServerCollector.Backup] :=
  ⟨by decide,
    (collectServer_no_matching_tier tableParseFloat web1NoTier State.empty
      (by decide)).1⟩

/-! ## Labels -/

/-- C5: every metric sent for a server, pricing metrics included, carries as
fourth label value the same network label: `public` when the server has no
private network attachment, and otherwise the decimal rendering of the network
ID of its first attachment, however many attachments follow. -/
theorem network_label_first_attachment
    (ParseFloat : String → Nat → Except String float64) (server : Server) (st : State)
    (m : Metric)
    (h : m ∈ emitted st (collectServer NewServerCollector ParseFloat server st)) :
    m.labelValues[3]?
      = some (match server.PrivateNet.head? with
          | none => "public"
          | some n => toString n.Network.ID) := by
  rw [emitted_collectServer] at h
  have hl : m.labelValues[3]? = some (networkLabel server) := by
    rcases mem_serverMetrics h with hb | ⟨v, hv | hv | hv | hv⟩
    · rw [baseMetrics_labelValues hb]
      rfl
    all_goals
      rw [hv]
      rfl
  rw [hl, networkLabel]
  cases server.PrivateNet with
  | nil => rfl
  | cons n rest => simp [FormatInt_ten]

/-- C5 at `web1` attached to the networks 7001 and 7002: the label is `7001`. -/
theorem network_label_first_attachment_witness :
    MustNewConstMetric NewServerCollector.Cores .GaugeValue (.finite 2)
        ["42", "web1", "fsn1-dc8", "7001"]
        ∈ emitted State.empty
            (collectServer NewServerCollector tableParseFloat web1Private State.empty)
      ∧ (MustNewConstMetric NewServerCollector.Cores .GaugeValue (.finite 2)
          ["42", "web1", "fsn1-dc8", "7001"]).labelValues[3]? = some "7001" :=
  ⟨by decide,
    (network_label_first_attachment tableParseFloat web1Private State.empty _
      (by decide)).trans (by decide)⟩

/-- C6: every metric `Collect` sends for a server has as many label values as
its descriptor has label names, in the same order: the first nine metrics
carry the decimal id, the name, the datacenter name and the network label under
`id`, `name`, `datacenter`, `network`; every later metric is an hourly or monthly
price and carries the same four values and then `net` or `gross` under the same
four names and then `vat`. -/
theorem label_values_match_descriptor
    (ParseFloat : String → Nat → Except String float64) (server : Server) (st : State) :
    (∀ m ∈ emitted st (collectServer NewServerCollector ParseFloat server st),
        m.labelValues.length = m.desc.variableLabels.length)
      ∧ ((emitted st (collectServer NewServerCollector ParseFloat server st)).take 9).length = 9
      ∧ (∀ m ∈ (emitted st (collectServer NewServerCollector ParseFloat server st)).take 9,
          m.desc.variableLabels = ["id", "name", "datacenter", "network"]
          ∧ m.labelValues
            = [toString server.ID, server.Name, server.Datacenter.Name, networkLabel server])
      ∧ (∀ m ∈ (emitted st (collectServer NewServerCollector ParseFloat server st)).drop 9,
          (m.desc = NewServerCollector.PriceHourly ∨ m.desc = NewServerCollector.PriceMonthly)
          ∧ m.desc.variableLabels = ["id", "name", "datacenter", "network", "vat"]
          ∧ (m.labelValues
              = [toString server.ID, server.Name, server.Datacenter.Name, networkLabel server,
                  "net"]
            ∨ m.labelValues
              = [toString server.ID, server.Name, server.Datacenter.Name, networkLabel server,
                  "gross"])) := by
  rw [emitted_collectServer]
  have hlen : (baseMetrics NewServerCollector server).length = 9 := rfl
  have htake : (serverMetrics NewServerCollector ParseFloat server).take 9
      = baseMetrics NewServerCollector server := by
    rw [serverMetrics, List.take_append_of_le_length (Nat.le_of_eq hlen.symm),
      List.take_of_length_le (Nat.le_of_eq hlen)]
  have hdrop : (serverMetrics NewServerCollector ParseFloat server).drop 9
      = tiersMetrics NewServerCollector ParseFloat server (baseLabels server ++ ["net"])
          (baseLabels server ++ ["gross"]) server.ServerType.Pricings := by
    rw [serverMetrics, ← hlen, List.drop_left]
  have hbase : ∀ m ∈ baseMetrics NewServerCollector server,
      m.desc.variableLabels = ["id", "name", "datacenter", "network"]
      ∧ m.labelValues
        = [toString server.ID, server.Name, server.Datacenter.Name, networkLabel server] := by
    intro m hm
    refine ⟨?_, ?_⟩
    · simp only [baseMetrics, List.mem_cons, List.mem_singleton, List.not_mem_nil,
        or_false] at hm
      rcases hm with h | h | h | h | h | h | h | h | h <;>
        simp [h, MustNewConstMetric, NewServerCollector, NewDesc]
    · rw [baseMetrics_labelValues hm, baseLabels, FormatInt_ten]
  have htiers : ∀ m ∈ tiersMetrics NewServerCollector ParseFloat server
      (baseLabels server ++ ["net"]) (baseLabels server ++ ["gross"])
      server.ServerType.Pricings,
      (m.desc = NewServerCollector.PriceHourly ∨ m.desc = NewServerCollector.PriceMonthly)
      ∧ m.desc.variableLabels = ["id", "name", "datacenter", "network", "vat"]
      ∧ (m.labelValues
          = [toString server.ID, server.Name, server.Datacenter.Name, networkLabel server,
              "net"]
        ∨ m.labelValues
          = [toString server.ID, server.Name, server.Datacenter.Name, networkLabel server,
              "gross"]) := by
    intro m hm
    obtain ⟨v, hv | hv | hv | hv⟩ := mem_tiersMetrics NewServerCollector ParseFloat hm <;>
      simp [hv, MustNewConstMetric, NewServerCollector, NewDesc, baseLabels, FormatInt_ten]
  refine ⟨?_, ?_, ?_, ?_⟩
  · intro m hm
    rw [serverMetrics] at hm
    rcases List.mem_append.1 hm with hb | ht
    · obtain ⟨h1, h2⟩ := hbase m hb
      rw [h1, h2]
      rfl
    · obtain ⟨-, h1, h2 | h2⟩ := htiers m ht <;>
      · rw [h1, h2]
        rfl
  · rw [htake, hlen]
  · rw [htake]
    exact hbase
  · rw [hdrop]
    exact htiers

/-! ## Values -/

/-- C8: for every server and every status string, `Collect` sends exactly one
`hcloud_server_running` metric; its value is 1 exactly when the status is the
string `running`, and 0 exactly when it is any other string. -/
theorem running_value (ParseFloat : String → Nat → Except String float64)
    (server : Server) (st : State) :
    ∃ v, ((emitted st (collectServer NewServerCollector ParseFloat server st)).filter
          (fun m => decide (m.desc = NewServerCollector.Running))).map (fun m => m.value) = [v]
      ∧ (v = .finite 1 ↔ server.Status = "running")
      ∧ (v = .finite 0 ↔ server.Status ≠ "running") := by
  rw [emitted_collectServer,
    filter_desc_serverMetrics ParseFloat server _ (by decide) (by decide)]
  refine ⟨if server.Status = "running" then .finite 1 else .finite 0, ?_, ?_, ?_⟩
  · simp [baseMetrics, MustNewConstMetric, NewServerCollector, NewDesc, List.filter_cons]
  · by_cases h : server.Status = "running" <;> simp [h]
  · by_cases h : server.Status = "running" <;> simp [h]

/-- C9, as stated, fails at the ends of the two field types: for a disk of
`2 ^ 43` the `int` product wraps and `hcloud_server_disk_bytes` is `-2 ^ 63`, not
`2 ^ 43 * 1024 * 1024`; for a memory of `2 ^ 108` the `float32` product overflows
and `hcloud_server_memory_bytes` is `+Inf`. -/
theorem huge_disk_wraps_and_huge_memory_overflows :
    ((emitted State.empty
        (collectServer NewServerCollector tableParseFloat web1Huge State.empty)).filter
          (fun m => decide (m.desc = NewServerCollector.Disk))).map (fun m => m.value)
        = [.finite (-(2 ^ 63))]
      ∧ ((emitted State.empty
        (collectServer NewServerCollector tableParseFloat web1Huge State.empty)).filter
          (fun m => decide (m.desc = NewServerCollector.Disk))).map (fun m => m.value)
        ≠ [.finite ((web1Huge.ServerType.Disk : ℚ) * 1024 * 1024)]
      ∧ ((emitted State.empty
        (collectServer NewServerCollector tableParseFloat web1Huge State.empty)).filter
          (fun m => decide (m.desc = NewServerCollector.Memory))).map (fun m => m.value)
        = [.inf false] := by
  have hdisk : float64.ofInt (mulInt (mulInt web1Huge.ServerType.Disk 1024) 1024)
      = .finite (-(2 ^ 63)) := by
    have h1 : mulInt (mulInt web1Huge.ServerType.Disk 1024) 1024 = (-1) * 2 ^ 63 := by decide
    rw [h1, float64.ofInt, roundToFloat64_mul_two_pow (-1) 63 (by decide)]
    norm_num
  have hmem : float64.ofFloat32 ((web1Huge.ServerType.Memory.mulPow2 10).mulPow2 10)
      = .inf false := by
    have h1 : web1Huge.ServerType.Memory = .finite (2 ^ 108) := rfl
    rw [h1]
    norm_num [float32.mulPow2, maxFloat32, float64.ofFloat32, abs_of_nonneg]
  rw [emitted_collectServer,
    filter_desc_serverMetrics tableParseFloat web1Huge _ (by decide) (by decide),
    filter_desc_serverMetrics tableParseFloat web1Huge _ (by decide) (by decide)]
  have hD : ((baseMetrics NewServerCollector web1Huge).filter
      (fun m => decide (m.desc = NewServerCollector.Disk))).map (fun m => m.value)
      = [float64.ofInt (mulInt (mulInt web1Huge.ServerType.Disk 1024) 1024)] := by
    simp [baseMetrics, MustNewConstMetric, NewServerCollector, NewDesc, List.filter_cons]
  have hM : ((baseMetrics NewServerCollector web1Huge).filter
      (fun m => decide (m.desc = NewServerCollector.Memory))).map (fun m => m.value)
      = [float64.ofFloat32 ((web1Huge.ServerType.Memory.mulPow2 10).mulPow2 10)] := by
    simp [baseMetrics, MustNewConstMetric, NewServerCollector, NewDesc, List.filter_cons]
  rw [hD, hM, hdisk, hmem]
  refine ⟨rfl, ?_, rfl⟩
  have h2 : web1Huge.ServerType.Disk = 2 ^ 43 := rfl
  rw [h2]
  norm_num

/-- C9, amended: for every server whose disk lies in `[-2 ^ 43, 2 ^ 43)` and
whose memory is a finite `float32` of magnitude at most the largest finite
`float32` divided by `2 ^ 20`, the value of `hcloud_server_memory_bytes` is exactly
the memory times 1024 times 1024 and the value of `hcloud_server_disk_bytes` is
exactly the disk times 1024 times 1024. -/
theorem memory_and_disk_bytes (ParseFloat : String → Nat → Except String float64)
    (server : Server) (st : State) (q : ℚ)
    (hd1 : -2 ^ 43 ≤ server.ServerType.Disk) (hd2 : server.ServerType.Disk < 2 ^ 43)
    (hq : server.ServerType.Memory = .finite q) (hr : |q| * 2 ^ 20 ≤ maxFloat32) :
    ((emitted st (collectServer NewServerCollector ParseFloat server st)).filter
          (fun m => decide (m.desc = NewServerCollector.Memory))).map (fun m => m.value)
        = [.finite (q * 1024 * 1024)]
      ∧ ((emitted st (collectServer NewServerCollector ParseFloat server st)).filter
          (fun m => decide (m.desc = NewServerCollector.Disk))).map (fun m => m.value)
        = [.finite ((server.ServerType.Disk : ℚ) * 1024 * 1024)] := by
  have hdisk : float64.ofInt (mulInt (mulInt server.ServerType.Disk 1024) 1024)
      = .finite ((server.ServerType.Disk : ℚ) * 1024 * 1024) := by
    have hn : server.ServerType.Disk.natAbs < 2 ^ 53 := by omega
    rw [mulInt_disk _ hd1 hd2, float64.ofInt, roundToFloat64_mul_two_pow _ 20 hn]
    congr 1
    push_cast
    ring
  have hmem : float64.ofFloat32 ((server.ServerType.Memory.mulPow2 10).mulPow2 10)
      = .finite (q * 1024 * 1024) := by
    have hnn : 0 ≤ |q| := abs_nonneg q
    have h1 : |q * 2 ^ 10| ≤ maxFloat32 := by
      rw [abs_mul, abs_of_nonneg (by positivity : (0 : ℚ) ≤ 2 ^ 10)]
      calc |q| * 2 ^ 10 ≤ |q| * 2 ^ 20 :=
            mul_le_mul_of_nonneg_left (by norm_num) hnn
        _ ≤ maxFloat32 := hr
    have h2 : |q * 2 ^ 10 * 2 ^ 10| ≤ maxFloat32 := by
      rw [abs_mul, abs_mul, abs_of_nonneg (by positivity : (0 : ℚ) ≤ 2 ^ 10)]
      calc |q| * 2 ^ 10 * 2 ^ 10 = |q| * 2 ^ 20 := by ring
        _ ≤ maxFloat32 := hr
    rw [hq]
    have h3 : q * 2 ^ 10 * 2 ^ 10 = q * 1024 * 1024 := by norm_num
    simp only [float32.mulPow2, if_pos h1, if_pos h2, float64.ofFloat32]
    rw [h3]
  rw [emitted_collectServer,
    filter_desc_serverMetrics ParseFloat server _ (by decide) (by decide),
    filter_desc_serverMetrics ParseFloat server _ (by decide) (by decide)]
  constructor
  · rw [← hmem]
    simp [baseMetrics, MustNewConstMetric, NewServerCollector, NewDesc, List.filter_cons]
  · rw [← hdisk]
    simp [baseMetrics, MustNewConstMetric, NewServerCollector, NewDesc, List.filter_cons]

/-- C9 at `web1`, with 4 of memory and 40 of disk. -/
theorem memory_and_disk_bytes_witness :
    (-2 ^ 43 ≤ web1.ServerType.Disk ∧ web1.ServerType.Disk < 2 ^ 43)
      ∧ (web1.ServerType.Memory = .finite 4 ∧ |(4 : ℚ)| * 2 ^ 20 ≤ maxFloat32)
      ∧ ((emitted State.empty
          (collectServer NewServerCollector tableParseFloat web1 State.empty)).filter
            (fun m => decide (m.desc = NewServerCollector.Memory))).map (fun m => m.value)
          = [.finite (4 * 1024 * 1024)]
      ∧ ((emitted State.empty
          (collectServer NewServerCollector tableParseFloat web1 State.empty)).filter
            (fun m => decide (m.desc = NewServerCollector.Disk))).map (fun m => m.value)
          = [.finite ((web1.ServerType.Disk : ℚ) * 1024 * 1024)] :=
  ⟨⟨by decide, by decide⟩, ⟨rfl, by norm_num [maxFloat32]⟩,
    memory_and_disk_bytes tableParseFloat web1 State.empty 4 (by decide) (by decide) rfl
      (by norm_num [maxFloat32])⟩

end exporter
